import Mathlib

/-!
Shallow embedding of the LinkedIn feed scraper (src/linkedinscraper.py).

The scraper talks to the browser through element handles.  Every handle
operation the Python code performs may raise, and the Python code decides
per call site whether such a fault is caught.  We model a DOM element by
the answers the element handle gives to exactly the queries the code makes,
each answer wrapped in `Except Unit` so that a raised exception is an
explicit value.  A post container is likewise modelled by the answers to
the four query shapes `extract_post_data` issues, and a page by the answer
`query_selector_all` gives for each container selector.
-/

namespace LinkedinScraper

/-! ### Python string primitives used by the code -/

/-- Whitespace test used to embed the Python `str.strip` method. -/
def isSpaceChar (c : Char) : Bool :=
  c == ' ' || c == '\t' || c == '\n' || c == '\r'

/-- Embedding of the Python `str.strip` method: drop leading and trailing
whitespace. -/
def pyStrip (s : String) : String :=
  String.mk (((s.toList.dropWhile isSpaceChar).reverse.dropWhile isSpaceChar).reverse)

/-- Lower-case one character, embedding Python `str.lower` per character. -/
def lcChar (c : Char) : Char :=
  if 'A' ≤ c && c ≤ 'Z' then Char.ofNat (c.toNat + 32) else c

/-- Embedding of the Python `str.lower` method. -/
def lcString (s : String) : String :=
  String.mk (s.toList.map lcChar)

/-- Does the second character list occur at the head of the first? -/
def charsStartWith : List Char → List Char → Bool
  | [], _ => true
  | _ :: _, [] => false
  | a :: as, b :: bs => a == b && charsStartWith as bs

/-- Does the needle occur anywhere in the haystack? -/
def charsContain (needle : List Char) : List Char → Bool
  | [] => charsStartWith needle []
  | b :: bs => charsStartWith needle (b :: bs) || charsContain needle bs

/-- Embedding of the Python `needle in hay` membership test on strings. -/
def strContains (hay needle : String) : Bool :=
  charsContain needle.toList hay.toList

/-- Embedding of the Python `sep.join(parts)` call. -/
def joinWith (sep : String) : List String → String
  | [] => ""
  | [x] => x
  | x :: y :: xs => x ++ sep ++ joinWith sep (y :: xs)

/-! ### DOM model -/

/-- An element handle, characterised by the two operations the code calls on
it: `inner_text()` and `get_attribute("aria-label")`.  Each may raise. -/
structure Elem where
  innerText : Except Unit String
  ariaLabel : Except Unit (Option String)

/-- A post container handle, characterised by the answers to the four query
shapes `extract_post_data` issues against it. -/
structure Container where
  /-- Answer to `query_selector('span[aria-hidden="true"]')`. -/
  authorQuery : Except Unit (Option Elem)
  /-- Answer to `query_selector_all(sel)` for each content selector. -/
  contentQuery : String → Except Unit (List Elem)
  /-- Answer to the engagement `query_selector_all` call. -/
  engagementQuery : Except Unit (List Elem)
  /-- Answer to the timestamp `query_selector` call. -/
  timestampQuery : Except Unit (Option Elem)

/-- A page handle, characterised by the containers each selector finds. -/
structure Page where
  queryAll : String → List Container

/-- The post dictionary built by `extract_post_data`.  The `engagement`
field embeds the Python dict as an association list. -/
structure PostData where
  post_number : Nat
  author : String
  content : String
  engagement : List (String × String)
  timestamp : String
deriving DecidableEq, Repr

/-! ### Field extraction, from `extract_post_data` (lines 195-262) -/

/-- Author step (lines 206-210): query the author span; when present take
its stripped inner text, otherwise keep the default sentinel.  No local
catch, so a fault propagates. -/
def authorField (c : Container) : Except Unit String :=
  match c.authorQuery with
  | Except.error e => Except.error e
  | Except.ok none => Except.ok "Unknown"
  | Except.ok (some el) =>
      match el.innerText with
      | Except.error e => Except.error e
      | Except.ok t => Except.ok (pyStrip t)

/-- The content selector cascade (lines 213-218). -/
def content_selectors : List String :=
  ["div[data-id] span[dir=\"ltr\"]",
   ".feed-shared-text",
   ".feed-shared-inline-show-more-text",
   "span[dir=\"ltr\"]"]

/-- The filter of line 226: text is truthy, its strip is truthy, and the
stripped length strictly exceeds 10. -/
def qualifying (t : String) : Bool :=
  t != "" && pyStrip t != "" && decide (10 < (pyStrip t).length)

/-- The inner loop of lines 223-227: fetch every inner text (a fault on any
element propagates) and keep the stripped texts that qualify. -/
def contentParts : List Elem → Except Unit (List String)
  | [] => Except.ok []
  | el :: rest =>
      match el.innerText with
      | Except.error e => Except.error e
      | Except.ok t =>
          match contentParts rest with
          | Except.error e => Except.error e
          | Except.ok tail =>
              Except.ok (if qualifying t then pyStrip t :: tail else tail)

/-- The inner texts of a list of elements, the first fault propagating, the
way the loop of lines 224-227 reads them. -/
def innerTexts : List Elem → Except Unit (List String)
  | [] => Except.ok []
  | el :: rest =>
      match el.innerText with
      | Except.error e => Except.error e
      | Except.ok t =>
          match innerTexts rest with
          | Except.error e => Except.error e
          | Except.ok ts => Except.ok (t :: ts)

/-- The selector loop of lines 220-231: the first selector whose element
list is non-empty and yields at least one qualifying part supplies the
content, joined with newlines and limited to the first 3 parts; otherwise
the content stays empty.  No local catch, so a fault propagates. -/
def contentCascade (c : Container) : List String → Except Unit String
  | [] => Except.ok ""
  | sel :: rest =>
      match c.contentQuery sel with
      | Except.error e => Except.error e
      | Except.ok els =>
          if els.isEmpty then contentCascade c rest
          else
            match contentParts els with
            | Except.error e => Except.error e
            | Except.ok parts =>
                if parts.isEmpty then contentCascade c rest
                else Except.ok (joinWith "\n" (parts.take 3))

/-- Content of one container: the cascade run over `content_selectors`. -/
def contentField (c : Container) : Except Unit String :=
  contentCascade c content_selectors

/-- The fixed keyword set of line 238. -/
def engagementKeywords : List String :=
  ["like", "comment", "share", "react"]

/-- The test of line 238: text is truthy and its lower-cased form holds one
of the keywords. -/
def engagementMatches (t : String) : Bool :=
  t != "" && engagementKeywords.any (fun kw => strContains (lcString t) kw)

/-- Embedding of a Python dict assignment on an association list: replace
the value at the key or append the pair. -/
def dictInsert (k v : String) : List (String × String) → List (String × String)
  | [] => [(k, v)]
  | (k2, v2) :: rest =>
      if k2 == k then (k, v) :: rest else (k2, v2) :: dictInsert k v rest

/-- The loop of lines 236-241, run under the bare catch of lines 234-243:
for each candidate element, a raise from `inner_text` or `get_attribute`
ends the loop keeping the dict mutations made so far; a matching element
with a truthy aria-label (non-null and non-empty, the line-240 truthiness
test) overwrites the `reactions` entry. -/
def engagementLoop (d : List (String × String)) :
    List Elem → List (String × String)
  | [] => d
  | el :: rest =>
      match el.innerText with
      | Except.error _ => d
      | Except.ok t =>
          if engagementMatches t then
            match el.ariaLabel with
            | Except.error _ => d
            | Except.ok (some lbl) =>
                if lbl != "" then engagementLoop (dictInsert "reactions" lbl d) rest
                else engagementLoop d rest
            | Except.ok none => engagementLoop d rest
          else engagementLoop d rest

/-- Engagement of one container (lines 233-243): a fault on the query
itself leaves the dict empty. -/
def engagementField (c : Container) : List (String × String) :=
  match c.engagementQuery with
  | Except.error _ => []
  | Except.ok els => engagementLoop [] els

/-- Timestamp of one container (lines 245-252), run under a bare catch:
any fault or a missing element leaves the default sentinel. -/
def timestampField (c : Container) : String :=
  match c.timestampQuery with
  | Except.error _ => "Unknown"
  | Except.ok none => "Unknown"
  | Except.ok (some el) =>
      match el.innerText with
      | Except.error _ => "Unknown"
      | Except.ok t => pyStrip t

/-- Embedding of `extract_post_data`: a fault escaping the author or
content steps is caught by the outer handler of lines 260-262 and yields
`none`; otherwise the record is returned exactly when the validity check of
line 255 passes. -/
def extract_post_data (c : Container) (post_number : Nat) : Option PostData :=
  match authorField c with
  | Except.error _ => none
  | Except.ok a =>
      match contentField c with
      | Except.error _ => none
      | Except.ok co =>
          if co != "" || a != "Unknown" then
            some { post_number := post_number, author := a, content := co,
                   engagement := engagementField c, timestamp := timestampField c }
          else none

/-! ### Container discovery and collection, from `scrape_feed_posts`
(lines 131-193) -/

/-- The prioritized container selector list of lines 155-161. -/
def selectors_to_try : List String :=
  ["div[data-id]",
   ".feed-shared-update-v2",
   ".occludable-update",
   "article",
   "[data-urn]"]

/-- The selector loop of lines 163-168: adopt the result of the first
selector with at least one match; when every selector matches nothing the
result is the empty list. -/
def firstNonempty (page : Page) : List String → List Container
  | [] => []
  | sel :: rest =>
      if (page.queryAll sel).isEmpty then firstNonempty page rest
      else page.queryAll sel

/-- The collection loop of lines 176-187: each container at zero-based
offset `k` is handed `k + 1` as its post number, records are appended in
order, and a `none` result skips the container. -/
def collectLoop : List Container → Nat → List PostData
  | [], _ => []
  | c :: rest, k =>
      match extract_post_data c (k + 1) with
      | some pd => pd :: collectLoop rest (k + 1)
      | none => collectLoop rest (k + 1)

/-- Embedding of `scrape_feed_posts`: discover containers, truncate to the
requested count, and run the collection loop. -/
def scrape_feed_posts (page : Page) (num_posts : Nat) : List PostData :=
  collectLoop ((firstNonempty page selectors_to_try).take num_posts) 0

/-! ### Readiness gate, from `login_to_linkedin` (lines 75-129) and `main`
(lines 297-335) -/

/-- Outcome of the readiness gate.  The two rejected constructors name the
two distinct rejection branches of the code: line 98 (URL does not contain
the target domain) and line 123 (URL on the domain but on no authenticated
surface path). -/
inductive GateResult
  | verified
  | rejectedNotOnTargetSite
  | rejectedNotAuthenticated
deriving DecidableEq, Repr

/-- The authenticated surface path fragments of line 103. -/
def authenticatedPaths : List String :=
  ["/feed/", "/in/", "/mynetwork", "/messaging"]

/-- The URL inspection performed after the human signal (lines 94-125). -/
def gate_result (current_url : String) : GateResult :=
  if !(strContains current_url "linkedin.com") then
    GateResult.rejectedNotOnTargetSite
  else if authenticatedPaths.any (fun p => strContains current_url p) then
    GateResult.verified
  else
    GateResult.rejectedNotAuthenticated

/-- Embedding of the boolean result of `login_to_linkedin`: the code
returns `True` exactly on the verified branch. -/
def login_to_linkedin (current_url : String) : Bool :=
  if !(strContains current_url "linkedin.com") then false
  else if authenticatedPaths.any (fun p => strContains current_url p) then true
  else false

/-- Embedding of the control flow of `main` (lines 310-316): extraction
runs only when the gate reported success; `none` means the scraping step
was never invoked. -/
def mainRun (page : Page) (current_url : String) : Option (List PostData) :=
  if login_to_linkedin current_url then some (scrape_feed_posts page 5) else none

/-! ### Reference characterization used by claim C10 -/

/-- The accessible label of the last keyword-matching element carrying a
truthy label (non-null and non-empty), scanning candidates in order and
stopping at the first fault, the way the engagement loop does. -/
def lastReactionLabel : List Elem → Option String
  | [] => none
  | el :: rest =>
      match el.innerText with
      | Except.error _ => none
      | Except.ok t =>
          if engagementMatches t then
            match el.ariaLabel with
            | Except.error _ => none
            | Except.ok (some lbl) =>
                if lbl != "" then
                  match lastReactionLabel rest with
                  | some v => some v
                  | none => some lbl
                else lastReactionLabel rest
            | Except.ok none => lastReactionLabel rest
          else lastReactionLabel rest

/-- A content cascade step that produces no qualifying part: its query
succeeds and either matches no element or yields only non-qualifying
texts. -/
def stepNoPart (c : Container) (sel : String) : Prop :=
  ∃ els, c.contentQuery sel = Except.ok els ∧
    (els = [] ∨ contentParts els = Except.ok [])

/-! ### Concrete fixtures -/

/-- An element whose inner text succeeds and whose aria-label is null. -/
def okElem (t : String) : Elem :=
  { innerText := Except.ok t, ariaLabel := Except.ok none }

/-- An element with both an inner text and an aria-label. -/
def labeledElem (t lbl : String) : Elem :=
  { innerText := Except.ok t, ariaLabel := Except.ok (some lbl) }

/-- An element whose every operation raises. -/
def faultyElem : Elem :=
  { innerText := Except.error (), ariaLabel := Except.error () }

/-- The engagement candidates of the well-formed fixture container. -/
def goodEngagementEls : List Elem :=
  [labeledElem "12 likes" "12 reactions on this post"]

/-- A container every field of which extracts cleanly. -/
def goodContainer : Container :=
  { authorQuery := Except.ok (some (okElem "Alice Smith")),
    contentQuery := fun _ => Except.ok [okElem "This is a sufficiently long post body."],
    engagementQuery := Except.ok goodEngagementEls,
    timestampQuery := Except.ok (some (okElem "2h")) }

/-- A container with no author element and no text at all. -/
def emptyTextContainer : Container :=
  { authorQuery := Except.ok none,
    contentQuery := fun _ => Except.ok [],
    engagementQuery := Except.ok [],
    timestampQuery := Except.ok none }

/-- A container whose author element raises on `inner_text` while its
content extracts cleanly. -/
def authorFaultContainer : Container :=
  { authorQuery := Except.ok (some faultyElem),
    contentQuery := fun _ => Except.ok [okElem "Interesting content exceeding ten chars."],
    engagementQuery := Except.ok [],
    timestampQuery := Except.ok none }

/-- Engagement candidates holding one keyword-matching text whose
accessible label is present but empty. -/
def emptyLabelEls : List Elem :=
  [labeledElem "5 likes" ""]

/-- A container with a resolved author whose sole engagement candidate
matches a keyword but carries an empty accessible label. -/
def emptyLabelContainer : Container :=
  { authorQuery := Except.ok (some (okElem "Bob Example")),
    contentQuery := fun _ => Except.ok [],
    engagementQuery := Except.ok emptyLabelEls,
    timestampQuery := Except.ok none }

/-- A page on which the first container selector finds an invalid container
followed by a valid one. -/
def gapPage : Page :=
  { queryAll := fun sel =>
      if sel = "div[data-id]" then [emptyTextContainer, goodContainer] else [] }

/-- A page on which no selector finds anything. -/
def emptyPage : Page :=
  { queryAll := fun _ => [] }

/-- The record the scraper produces for `goodContainer` in second raw
position on `gapPage`. -/
def goodRecord : PostData :=
  { post_number := 2, author := "Alice Smith",
    content := "This is a sufficiently long post body.",
    engagement := [("reactions", "12 reactions on this post")],
    timestamp := "2h" }

/-! ### Basic lemmas about the extractor -/

/-- Everything a successful extraction determines: the field steps it ran,
the number it stamped, and the validity condition it checked. -/
lemma extract_some_elim {c : Container} {n : Nat} {pd : PostData}
    (h : extract_post_data c n = some pd) :
    authorField c = Except.ok pd.author ∧ contentField c = Except.ok pd.content ∧
    pd.post_number = n ∧ pd.engagement = engagementField c ∧
    pd.timestamp = timestampField c ∧
    (pd.content != "" || pd.author != "Unknown") = true := by
  unfold extract_post_data at h
  split at h
  · exact absurd h (by simp)
  next a ha =>
    split at h
    · exact absurd h (by simp)
    next co hc =>
      split at h
      next hcond =>
        injection h with h2
        subst h2
        exact ⟨ha, hc, rfl, rfl, rfl, hcond⟩
      next hcond => exact absurd h (by simp)

/-- A fault escaping the author step yields no record. -/
lemma extract_author_fault {c : Container} {n : Nat} {e : Unit}
    (ha : authorField c = Except.error e) : extract_post_data c n = none := by
  unfold extract_post_data
  rw [ha]

/-- A fault escaping the content step yields no record. -/
lemma extract_content_fault {c : Container} {n : Nat} {a : String} {e : Unit}
    (ha : authorField c = Except.ok a) (hc : contentField c = Except.error e) :
    extract_post_data c n = none := by
  unfold extract_post_data
  rw [ha, hc]

/-- In a fault-free run of the author and content steps, the extractor
returns nothing exactly when the author stayed at the sentinel and the
content stayed empty. -/
lemma extract_none_iff {c : Container} {n : Nat} {a co : String}
    (ha : authorField c = Except.ok a) (hc : contentField c = Except.ok co) :
    (extract_post_data c n = none ↔ (a = "Unknown" ∧ co = "")) := by
  simp only [extract_post_data, ha, hc]
  by_cases h1 : (co != "" || a != "Unknown") = true
  · rw [if_pos h1]
    constructor
    · intro h; exact absurd h (by simp)
    · rintro ⟨h2, h3⟩
      rw [h2, h3] at h1
      simp at h1
  · rw [if_neg h1]
    simp only [Bool.or_eq_true, bne_iff_ne, ne_eq, not_or, not_not] at h1
    simp [h1.1, h1.2]

/-! ### Lemmas about the collection loop -/

/-- Every record the loop produces carries a number above the offset. -/
lemma collectLoop_mem_gt {cs : List Container} {k : Nat} {pd : PostData}
    (h : pd ∈ collectLoop cs k) : k < pd.post_number := by
  induction cs generalizing k with
  | nil => simp [collectLoop] at h
  | cons c rest ih =>
      revert h
      simp only [collectLoop]
      cases hx : extract_post_data c (k + 1) with
      | none =>
          intro h
          exact Nat.lt_of_succ_lt (ih h)
      | some q =>
          intro h
          rcases List.mem_cons.mp h with h2 | h2
          · subst h2
            have hq := (extract_some_elim hx).2.2.1
            omega
          · have := ih h2
            omega

/-- Every record the loop produces carries a number at most the offset plus
the number of containers handed to it. -/
lemma collectLoop_mem_le {cs : List Container} {k : Nat} {pd : PostData}
    (h : pd ∈ collectLoop cs k) : pd.post_number ≤ k + cs.length := by
  induction cs generalizing k with
  | nil => simp [collectLoop] at h
  | cons c rest ih =>
      revert h
      simp only [collectLoop]
      cases hx : extract_post_data c (k + 1) with
      | none =>
          intro h
          have := ih h
          simp only [List.length_cons]
          omega
      | some q =>
          intro h
          rcases List.mem_cons.mp h with h2 | h2
          · subst h2
            have hq := (extract_some_elim hx).2.2.1
            simp only [List.length_cons]
            omega
          · have := ih h2
            simp only [List.length_cons]
            omega

/-- The loop returns at most one record per container handed to it. -/
lemma collectLoop_length_le (cs : List Container) (k : Nat) :
    (collectLoop cs k).length ≤ cs.length := by
  induction cs generalizing k with
  | nil => simp [collectLoop]
  | cons c rest ih =>
      simp only [collectLoop]
      cases hx : extract_post_data c (k + 1) with
      | none =>
          simp only [List.length_cons]
          exact Nat.le_succ_of_le (ih (k + 1))
      | some q =>
          simp only [List.length_cons]
          exact Nat.succ_le_succ (ih (k + 1))

/-- The numbers of the records the loop produces are strictly increasing. -/
lemma collectLoop_pairwise (cs : List Container) (k : Nat) :
    List.Pairwise (fun a b => a.post_number < b.post_number) (collectLoop cs k) := by
  induction cs generalizing k with
  | nil => simp [collectLoop]
  | cons c rest ih =>
      simp only [collectLoop]
      cases hx : extract_post_data c (k + 1) with
      | none => exact ih (k + 1)
      | some q =>
          refine List.Pairwise.cons ?_ (ih (k + 1))
          intro b hb
          have h1 := (extract_some_elim hx).2.2.1
          have h2 := collectLoop_mem_gt hb
          omega

/-- Every record the loop produces comes from the container at the raw
offset its number names. -/
lemma collectLoop_mem_index {cs : List Container} {k : Nat} {pd : PostData}
    (h : pd ∈ collectLoop cs k) :
    ∃ i c, cs.get? i = some c ∧ pd.post_number = k + i + 1 ∧
      extract_post_data c (k + i + 1) = some pd := by
  induction cs generalizing k with
  | nil => simp [collectLoop] at h
  | cons c rest ih =>
      revert h
      simp only [collectLoop]
      cases hx : extract_post_data c (k + 1) with
      | none =>
          intro h
          obtain ⟨i, c', h1, h2, h3⟩ := ih h
          refine ⟨i + 1, c', h1, by omega, ?_⟩
          rw [show k + (i + 1) + 1 = k + 1 + i + 1 by omega]
          exact h3
      | some q =>
          intro h
          rcases List.mem_cons.mp h with h2 | h2
          · subst h2
            exact ⟨0, c, rfl, by have := (extract_some_elim hx).2.2.1; omega, hx⟩
          · obtain ⟨i, c', h1, h3, h4⟩ := ih h2
            refine ⟨i + 1, c', h1, by omega, ?_⟩
            rw [show k + (i + 1) + 1 = k + 1 + i + 1 by omega]
            exact h4

/-! ### Lemmas about container discovery -/

/-- When every selector matches nothing, discovery yields nothing. -/
lemma firstNonempty_all_empty (page : Page) (sels : List String)
    (h : ∀ s ∈ sels, page.queryAll s = []) : firstNonempty page sels = [] := by
  induction sels with
  | nil => rfl
  | cons s rest ih =>
      simp only [firstNonempty]
      rw [h s (List.mem_cons_self s rest)]
      simp only [List.isEmpty_nil, if_true]
      exact ih fun s2 hs2 => h s2 (List.mem_cons_of_mem s hs2)

/-- Discovery adopts the match set of the first selector with at least one
match, skipping every earlier selector, which matched nothing. -/
lemma firstNonempty_adopt (page : Page) (pre post : List String) (sel : String)
    (hpre : ∀ s ∈ pre, page.queryAll s = []) (hne : page.queryAll sel ≠ []) :
    firstNonempty page (pre ++ sel :: post) = page.queryAll sel := by
  induction pre with
  | nil =>
      simp only [List.nil_append, firstNonempty]
      rw [if_neg]
      simp only [List.isEmpty_iff]
      exact hne
  | cons s pre ih =>
      simp only [List.cons_append, firstNonempty]
      rw [hpre s (List.mem_cons_self s pre)]
      simp only [List.isEmpty_nil, if_true]
      exact ih fun s2 hs2 => hpre s2 (List.mem_cons_of_mem s hs2)

/-! ### Lemmas about the content cascade -/

/-- Collapsing the filter of line 226: a text qualifies exactly when its
stripped length strictly exceeds 10 characters. -/
lemma qualifying_iff (t : String) : qualifying t = true ↔ 10 < (pyStrip t).length := by
  unfold qualifying
  simp only [Bool.and_eq_true, bne_iff_ne, ne_eq, decide_eq_true_eq]
  constructor
  · rintro ⟨⟨_, _⟩, h⟩
    exact h
  · intro h
    refine ⟨⟨?_, ?_⟩, h⟩
    · intro ht
      rw [ht] at h
      exact absurd h (by decide)
    · intro hs
      rw [hs] at h
      exact absurd h (by decide)

/-- When every inner text is read without fault, the parts are exactly the
stripped forms of the qualifying texts, in order. -/
lemma contentParts_eq_of_texts (els : List Elem) (ts : List String)
    (h : innerTexts els = Except.ok ts) :
    contentParts els = Except.ok ((ts.filter qualifying).map pyStrip) := by
  induction els generalizing ts with
  | nil =>
      simp only [innerTexts] at h
      injection h with h2
      subst h2
      rfl
  | cons el rest ih =>
      revert h
      simp only [innerTexts, contentParts]
      cases ht : el.innerText with
      | error e => intro h; exact absurd h (by simp)
      | ok t =>
          cases hr : innerTexts rest with
          | error e => intro h; exact absurd h (by simp)
          | ok ts2 =>
              intro h
              injection h with h2
              subst h2
              rw [ih ts2 hr]
              by_cases hq : qualifying t = true
              · simp [List.filter_cons, hq]
              · simp only [Bool.not_eq_true] at hq
                simp [List.filter_cons, hq]

/-- The cascade adopts the first step that produces a qualifying part:
earlier steps that produced none are passed over, and the adopted step
supplies the newline-joined first three parts. -/
lemma contentCascade_adopt (c : Container) (pre post : List String) (sel : String)
    (hpre : ∀ s ∈ pre, stepNoPart c s)
    (els : List Elem) (hq : c.contentQuery sel = Except.ok els)
    (parts : List String) (hp : contentParts els = Except.ok parts) (hne : parts ≠ []) :
    contentCascade c (pre ++ sel :: post) = Except.ok (joinWith "\n" (parts.take 3)) := by
  induction pre with
  | nil =>
      have hels : els.isEmpty = false := by
        cases els with
        | nil =>
            exfalso
            apply hne
            simp only [contentParts] at hp
            injection hp with h2
            exact h2.symm
        | cons a b => rfl
      simp only [List.nil_append, contentCascade, hq]
      rw [if_neg (by simp [hels])]
      simp only [hp]
      rw [if_neg (by simp [List.isEmpty_iff, hne])]
  | cons s pre ih =>
      obtain ⟨els2, hq2, hcase⟩ := hpre s (List.mem_cons_self s pre)
      have ihx := ih fun s2 hs2 => hpre s2 (List.mem_cons_of_mem s hs2)
      simp only [List.cons_append, contentCascade, hq2]
      rcases hcase with rfl | hparts0
      · simp only [List.isEmpty_nil, if_true]
        exact ihx
      · by_cases he : els2.isEmpty = true
        · rw [if_pos he]
          exact ihx
        · rw [if_neg (by simp [he])]
          simp only [hparts0, List.isEmpty_nil, if_true]
          exact ihx

/-! ### Lemmas about the engagement loop -/

/-- When no readable candidate text matches a keyword, the loop leaves the
dict untouched. -/
lemma engagementLoop_no_match (d : List (String × String)) (els : List Elem)
    (h : ∀ el ∈ els, ∀ t, el.innerText = Except.ok t → engagementMatches t = false) :
    engagementLoop d els = d := by
  induction els with
  | nil => rfl
  | cons el rest ih =>
      cases ht : el.innerText with
      | error e => simp [engagementLoop, ht]
      | ok t =>
          have hm := h el (List.mem_cons_self el rest) t ht
          simp only [engagementLoop, ht, hm, Bool.false_eq_true, if_false]
          exact ih fun el2 h2 t2 ht2 => h el2 (List.mem_cons_of_mem el h2) t2 ht2

/-- Membership after a dict assignment: the pair is the one just written or
was already present. -/
lemma dictInsert_mem {k v k0 v0 : String} {d : List (String × String)}
    (h : (k, v) ∈ dictInsert k0 v0 d) : (k = k0 ∧ v = v0) ∨ (k, v) ∈ d := by
  induction d with
  | nil =>
      simp only [dictInsert, List.mem_singleton, Prod.mk.injEq] at h
      exact Or.inl h
  | cons p rest ih =>
      obtain ⟨k2, v2⟩ := p
      simp only [dictInsert] at h
      by_cases he : (k2 == k0) = true
      · rw [if_pos he] at h
        rcases List.mem_cons.mp h with h2 | h2
        · injection h2 with h3 h4
          exact Or.inl ⟨h3, h4⟩
        · exact Or.inr (List.mem_cons_of_mem _ h2)
      · rw [if_neg he] at h
        rcases List.mem_cons.mp h with h2 | h2
        · exact Or.inr (by rw [h2]; exact List.mem_cons_self _ _)
        · rcases ih h2 with h3 | h3
          · exact Or.inl h3
          · exact Or.inr (List.mem_cons_of_mem _ h3)

/-- Every pair the loop adds is keyed `reactions` and carries the non-null
aria-label of some candidate whose text matched a keyword. -/
lemma engagementLoop_mem {els : List Elem} {d : List (String × String)} {k v : String}
    (h : (k, v) ∈ engagementLoop d els) :
    (k, v) ∈ d ∨ (k = "reactions" ∧ ∃ el ∈ els, ∃ t, el.innerText = Except.ok t ∧
      engagementMatches t = true ∧ el.ariaLabel = Except.ok (some v)) := by
  induction els generalizing d with
  | nil => exact Or.inl h
  | cons el rest ih =>
      cases ht : el.innerText with
      | error e =>
          simp only [engagementLoop, ht] at h
          exact Or.inl h
      | ok t =>
          by_cases hm : engagementMatches t = true
          · cases hl : el.ariaLabel with
            | error e =>
                simp only [engagementLoop, ht, hm, eq_self_iff_true, if_true, hl] at h
                exact Or.inl h
            | ok lblOpt =>
                cases lblOpt with
                | none =>
                    simp only [engagementLoop, ht, hm, eq_self_iff_true, if_true, hl] at h
                    rcases ih h with h2 | ⟨h2, el2, hmem, t2, rest2⟩
                    · exact Or.inl h2
                    · exact Or.inr ⟨h2, el2, List.mem_cons_of_mem el hmem, t2, rest2⟩
                | some lbl =>
                    by_cases hlbl : (lbl != "") = true
                    · simp only [engagementLoop, ht, hm, eq_self_iff_true, if_true,
                        hl, hlbl] at h
                      rcases ih h with h2 | ⟨h2, el2, hmem, t2, rest2⟩
                      · rcases dictInsert_mem h2 with ⟨rfl, rfl⟩ | h3
                        · exact Or.inr ⟨rfl, el, List.mem_cons_self el rest, t, ht, hm, hl⟩
                        · exact Or.inl h3
                      · exact Or.inr ⟨h2, el2, List.mem_cons_of_mem el hmem, t2, rest2⟩
                    · simp only [Bool.not_eq_true] at hlbl
                      simp only [engagementLoop, ht, hm, eq_self_iff_true, if_true,
                        hl, hlbl, Bool.false_eq_true, if_false] at h
                      rcases ih h with h2 | ⟨h2, el2, hmem, t2, rest2⟩
                      · exact Or.inl h2
                      · exact Or.inr ⟨h2, el2, List.mem_cons_of_mem el hmem, t2, rest2⟩
          · simp only [Bool.not_eq_true] at hm
            simp only [engagementLoop, ht, hm, Bool.false_eq_true, if_false] at h
            rcases ih h with h2 | ⟨h2, el2, hmem, t2, rest2⟩
            · exact Or.inl h2
            · exact Or.inr ⟨h2, el2, List.mem_cons_of_mem el hmem, t2, rest2⟩

/-- Unfolding the keyword test of line 238. -/
lemma engagementMatches_iff (t : String) :
    engagementMatches t = true ↔
      ∃ kw ∈ engagementKeywords, strContains (lcString t) kw = true := by
  unfold engagementMatches
  simp only [Bool.and_eq_true, List.any_eq_true]
  constructor
  · rintro ⟨_, kw, hkw, hc⟩
    exact ⟨kw, hkw, hc⟩
  · rintro ⟨kw, hkw, hc⟩
    refine ⟨?_, kw, hkw, hc⟩
    by_contra hne
    simp only [bne_iff_ne, ne_eq, not_not] at hne
    subst hne
    simp only [engagementKeywords, List.mem_cons, List.not_mem_nil, or_false] at hkw
    rcases hkw with rfl | rfl | rfl | rfl <;> exact absurd hc (by decide)

/-- Writing the same key twice keeps only the later value. -/
lemma dictInsert_overwrite (k v v2 : String) (d : List (String × String)) :
    dictInsert k v (dictInsert k v2 d) = dictInsert k v d := by
  induction d with
  | nil => simp [dictInsert]
  | cons p rest ih =>
      obtain ⟨k2, v3⟩ := p
      by_cases he : (k2 == k) = true
      · simp [dictInsert, he]
      · simp [dictInsert, he, ih]

/-- The loop is the single assignment of the last surviving label: it
writes the last matching non-null label if one exists before the first
fault, and otherwise leaves the dict alone. -/
lemma engagementLoop_eq_last (d : List (String × String)) (els : List Elem) :
    engagementLoop d els =
      match lastReactionLabel els with
      | none => d
      | some v => dictInsert "reactions" v d := by
  induction els generalizing d with
  | nil => rfl
  | cons el rest ih =>
      cases ht : el.innerText with
      | error e => simp [engagementLoop, lastReactionLabel, ht]
      | ok t =>
          by_cases hm : engagementMatches t = true
          · cases hl : el.ariaLabel with
            | error e =>
                simp [engagementLoop, lastReactionLabel, ht, hm, hl]
            | ok lblOpt =>
                cases lblOpt with
                | none =>
                    simp only [engagementLoop, lastReactionLabel, ht, hm,
                      eq_self_iff_true, if_true, hl]
                    exact ih d
                | some lbl =>
                    by_cases hlbl : (lbl != "") = true
                    · simp only [engagementLoop, lastReactionLabel, ht, hm,
                        eq_self_iff_true, if_true, hl, hlbl]
                      rw [ih (dictInsert "reactions" lbl d)]
                      cases hr : lastReactionLabel rest with
                      | none => rfl
                      | some v => exact dictInsert_overwrite "reactions" v lbl d
                    · simp only [Bool.not_eq_true] at hlbl
                      simp only [engagementLoop, lastReactionLabel, ht, hm,
                        eq_self_iff_true, if_true, hl, hlbl, Bool.false_eq_true,
                        if_false]
                      exact ih d
          · simp only [Bool.not_eq_true] at hm
            simp only [engagementLoop, lastReactionLabel, ht, hm,
              Bool.false_eq_true, if_false]
            exact ih d

/-! ### Container-level isolation -/

/-- Replacing the container at one raw position changes no record produced
from the other positions. -/
lemma collectLoop_filter_isolated (cs1 cs2 : List Container) (c c2 : Container) (k : Nat) :
    (collectLoop (cs1 ++ c :: cs2) k).filter
        (fun pd => pd.post_number != k + cs1.length + 1) =
      (collectLoop (cs1 ++ c2 :: cs2) k).filter
        (fun pd => pd.post_number != k + cs1.length + 1) := by
  induction cs1 generalizing k with
  | nil =>
      have hmain : ∀ x : Container,
          (collectLoop (x :: cs2) k).filter
              (fun pd => pd.post_number != k + ([] : List Container).length + 1) =
            collectLoop cs2 (k + 1) := by
        intro x
        simp only [collectLoop, List.length_nil]
        have hrest : (collectLoop cs2 (k + 1)).filter
            (fun pd => pd.post_number != k + 0 + 1) = collectLoop cs2 (k + 1) := by
          apply List.filter_eq_self.mpr
          intro pd hpd
          have := collectLoop_mem_gt hpd
          simp only [bne_iff_ne, ne_eq]
          omega
        cases hx : extract_post_data x (k + 1) with
        | none => exact hrest
        | some q =>
            have hq := (extract_some_elim hx).2.2.1
            rw [List.filter_cons_of_neg (by simp only [bne_iff_ne, ne_eq, not_not]; omega)]
            exact hrest
      simp only [List.nil_append]
      rw [hmain c, hmain c2]
  | cons s cs1 ih =>
      simp only [List.cons_append, collectLoop, List.length_cons]
      have harith : ∀ m : Nat, k + (m + 1) + 1 = k + 1 + m + 1 := by omega
      rw [harith cs1.length]
      cases hx : extract_post_data s (k + 1) with
      | none => exact ih (k + 1)
      | some q =>
          have hq := (extract_some_elim hx).2.2.1
          rw [List.filter_cons_of_pos (by simp only [bne_iff_ne, ne_eq]; omega),
              List.filter_cons_of_pos (by simp only [bne_iff_ne, ne_eq]; omega)]
          exact congrArg (List.cons q) (ih (k + 1))

/-! ### Claim theorems -/

/-- C1, counterexample: on a page whose first selector finds an invalid
container followed by a valid one with requested count 5, the sequence
numbers of the result are not 1, 2, 3, ...: the sole record carries
number 2, because the code stamps the raw container index, so the skipped
container leaves a gap. -/
theorem C1_renumbering_counterexample :
    (scrape_feed_posts gapPage 5).map PostData.post_number ≠
      List.range' 1 ((scrape_feed_posts gapPage 5).length) := by decide

/-- C1, amended: each returned record carries as post number the raw
1-based index of its container in the processed list, not the 1-based
position within the successful result set: the numbers are strictly
increasing and lie between 1 and the number of containers processed, but
skipped containers leave gaps. -/
theorem C1_amended_raw_numbering (page : Page) (n : Nat) :
    (∀ pd ∈ scrape_feed_posts page n,
        ∃ i c, ((firstNonempty page selectors_to_try).take n).get? i = some c ∧
          pd.post_number = i + 1 ∧ extract_post_data c (i + 1) = some pd) ∧
    List.Pairwise (· < ·) ((scrape_feed_posts page n).map PostData.post_number) ∧
    ∀ m ∈ (scrape_feed_posts page n).map PostData.post_number,
      1 ≤ m ∧ m ≤ min n (firstNonempty page selectors_to_try).length := by
  refine ⟨?_, ?_, ?_⟩
  · intro pd h
    obtain ⟨i, c, h1, h2, h3⟩ := collectLoop_mem_index h
    refine ⟨i, c, h1, by omega, ?_⟩
    rw [show i + 1 = 0 + i + 1 by omega]
    exact h3
  · exact List.pairwise_map.mpr (collectLoop_pairwise _ _)
  · intro m hm
    obtain ⟨pd, hpd, rfl⟩ := List.mem_map.mp hm
    have h1 := collectLoop_mem_gt hpd
    have h2 := collectLoop_mem_le hpd
    rw [List.length_take] at h2
    omega

/-- Closed instance of the amended C1 statement on the gap page: the sole
record sits at raw container index 2. -/
theorem C1_amended_raw_numbering_witness :
    (∃ i c, ((firstNonempty gapPage selectors_to_try).take 5).get? i = some c ∧
        goodRecord.post_number = i + 1 ∧
        extract_post_data c (i + 1) = some goodRecord) ∧
    List.Pairwise (· < ·) ((scrape_feed_posts gapPage 5).map PostData.post_number) ∧
    (1 ≤ goodRecord.post_number ∧
      goodRecord.post_number ≤ min 5 (firstNonempty gapPage selectors_to_try).length) :=
  ⟨(C1_amended_raw_numbering gapPage 5).1 goodRecord (by decide),
   (C1_amended_raw_numbering gapPage 5).2.1,
   (C1_amended_raw_numbering gapPage 5).2.2 goodRecord.post_number (by decide)⟩

/-- C2, counterexample: a fault while extracting the author field makes the
extractor drop the whole post, although the content field extracts cleanly
and is non-empty, so field extraction is not isolated per field. -/
theorem C2_per_field_isolation_counterexample :
    authorField authorFaultContainer = Except.error () ∧
    contentField authorFaultContainer =
      Except.ok "Interesting content exceeding ten chars." ∧
    extract_post_data authorFaultContainer 1 = none :=
  ⟨rfl, rfl, rfl⟩

/-- C2, amended: engagement and timestamp extraction are isolated (the
record always carries the totalised values of those fields, absorbing their
faults), but a fault escaping the author or content step yields None for
the whole post; a fault while processing one container affects no record
produced from the other containers. -/
theorem C2_amended_fault_isolation :
    (∀ c n pd, extract_post_data c n = some pd →
        pd.engagement = engagementField c ∧ pd.timestamp = timestampField c ∧
        authorField c = Except.ok pd.author ∧ contentField c = Except.ok pd.content) ∧
    (∀ c n, ((∃ e, authorField c = Except.error e) ∨
        (∃ e, contentField c = Except.error e)) →
        extract_post_data c n = none) ∧
    (∀ cs1 cs2 c c2 k,
        (collectLoop (cs1 ++ c :: cs2) k).filter
            (fun pd => pd.post_number != k + cs1.length + 1) =
          (collectLoop (cs1 ++ c2 :: cs2) k).filter
            (fun pd => pd.post_number != k + cs1.length + 1)) := by
  refine ⟨?_, ?_, collectLoop_filter_isolated⟩
  · intro c n pd h
    have he := extract_some_elim h
    exact ⟨he.2.2.2.1, he.2.2.2.2.1, he.1, he.2.1⟩
  · intro c n hor
    rcases hor with ⟨e, ha⟩ | ⟨e, hc⟩
    · exact extract_author_fault ha
    · cases ha2 : authorField c with
      | error e2 => exact extract_author_fault ha2
      | ok a => exact extract_content_fault ha2 hc

/-- Closed instance of the amended C2 statement. -/
theorem C2_amended_fault_isolation_witness :
    (goodRecord.engagement = engagementField goodContainer ∧
     goodRecord.timestamp = timestampField goodContainer ∧
     authorField goodContainer = Except.ok goodRecord.author ∧
     contentField goodContainer = Except.ok goodRecord.content) ∧
    extract_post_data authorFaultContainer 3 = none :=
  ⟨C2_amended_fault_isolation.1 goodContainer 2 goodRecord rfl,
   C2_amended_fault_isolation.2.1 authorFaultContainer 3 (Or.inl ⟨(), rfl⟩)⟩

/-- C3: when the author and content steps run without fault, the extractor
returns nothing exactly when the author is the unresolved sentinel and the
content is empty, and every returned record has a resolved author or a
non-empty content. -/
theorem C3_validity_invariant (c : Container) (n : Nat) (a co : String)
    (ha : authorField c = Except.ok a) (hc : contentField c = Except.ok co) :
    (extract_post_data c n = none ↔ (a = "Unknown" ∧ co = "")) ∧
    (∀ pd, extract_post_data c n = some pd →
        ¬(pd.author = "Unknown" ∧ pd.content = "")) := by
  refine ⟨extract_none_iff ha hc, ?_⟩
  rintro pd h ⟨hA, hC⟩
  have hcond := (extract_some_elim h).2.2.2.2.2
  rw [hA, hC] at hcond
  simp at hcond

/-- Closed instance of C3 on the container with no author and no text. -/
theorem C3_validity_invariant_witness :
    (extract_post_data emptyTextContainer 1 = none ↔
      ("Unknown" = "Unknown" ∧ "" = "")) ∧
    (∀ pd, extract_post_data emptyTextContainer 1 = some pd →
        ¬(pd.author = "Unknown" ∧ pd.content = "")) :=
  C3_validity_invariant emptyTextContainer 1 "Unknown" "" rfl rfl

/-- C4: with every selector matching nothing the run returns the empty list
as a value; the first selector with at least one match has its whole match
set adopted, never mixed with another selector; and the adopted set is
truncated to the requested count before collection. -/
theorem C4_container_discovery (page : Page) (n : Nat) :
    ((∀ sel ∈ selectors_to_try, page.queryAll sel = []) →
        scrape_feed_posts page n = []) ∧
    (∀ pre sel post, selectors_to_try = pre ++ sel :: post →
        (∀ s ∈ pre, page.queryAll s = []) → page.queryAll sel ≠ [] →
        firstNonempty page selectors_to_try = page.queryAll sel) ∧
    scrape_feed_posts page n = collectLoop ((firstNonempty page selectors_to_try).take n) 0 := by
  refine ⟨?_, ?_, rfl⟩
  · intro h
    unfold scrape_feed_posts
    rw [firstNonempty_all_empty page _ h]
    simp only [List.take_nil]
    rfl
  · intro pre sel post hsp hpre hne
    rw [hsp]
    exact firstNonempty_adopt page pre post sel hpre hne

/-- Closed instances of C4: the empty page yields an empty result, and the
gap page adopts the match set of the first selector. -/
theorem C4_container_discovery_witness :
    scrape_feed_posts emptyPage 5 = [] ∧
    firstNonempty gapPage selectors_to_try = gapPage.queryAll "div[data-id]" :=
  ⟨(C4_container_discovery emptyPage 5).1 (fun _ _ => rfl),
   (C4_container_discovery gapPage 5).2.1 [] "div[data-id]"
     [".feed-shared-update-v2", ".occludable-update", "article", "[data-urn]"]
     rfl (fun s hs => absurd hs (List.not_mem_nil s)) (by simp [gapPage])⟩

/-- C5: when no readable candidate text matches a keyword the engagement
mapping stays empty, as a value and never as a fault; every recorded pair
sits under the key `reactions` and its value is the accessible label, not
the visible text, of a candidate whose text matched; and the keyword test
is exactly a case-insensitive containment of one of like, comment, share,
react. -/
theorem C5_engagement_rule (c : Container) (els : List Elem)
    (hq : c.engagementQuery = Except.ok els) :
    ((∀ el ∈ els, ∀ t, el.innerText = Except.ok t → engagementMatches t = false) →
        engagementField c = []) ∧
    (∀ k v, (k, v) ∈ engagementField c →
        k = "reactions" ∧ ∃ el ∈ els, ∃ t, el.innerText = Except.ok t ∧
          engagementMatches t = true ∧ el.ariaLabel = Except.ok (some v)) ∧
    (∀ t, engagementMatches t = true ↔
        ∃ kw ∈ engagementKeywords, strContains (lcString t) kw = true) := by
  refine ⟨?_, ?_, engagementMatches_iff⟩
  · intro h
    simp only [engagementField, hq]
    exact engagementLoop_no_match [] els h
  · intro k v hkv
    simp only [engagementField, hq] at hkv
    rcases engagementLoop_mem hkv with h2 | h2
    · exact absurd h2 (List.not_mem_nil _)
    · exact h2

/-- Closed instance of C5 on the well-formed fixture container. -/
theorem C5_engagement_rule_witness :
    ((∀ el ∈ goodEngagementEls, ∀ t, el.innerText = Except.ok t →
        engagementMatches t = false) → engagementField goodContainer = []) ∧
    (∀ k v, (k, v) ∈ engagementField goodContainer →
        k = "reactions" ∧ ∃ el ∈ goodEngagementEls, ∃ t,
          el.innerText = Except.ok t ∧ engagementMatches t = true ∧
          el.ariaLabel = Except.ok (some v)) ∧
    (∀ t, engagementMatches t = true ↔
        ∃ kw ∈ engagementKeywords, strContains (lcString t) kw = true) :=
  C5_engagement_rule goodContainer goodEngagementEls rfl

/-- C6: a text qualifies exactly when its trimmed length strictly exceeds
10 characters, and the cascade step adopted is the first one producing a
qualifying part, with every earlier step having produced none; the content
is the newline join of at most the first 3 qualifying stripped texts of the
adopted step. -/
theorem C6_content_rule (c : Container) (pre post : List String) (sel : String)
    (els : List Elem) (ts : List String)
    (hsel : content_selectors = pre ++ sel :: post)
    (hpre : ∀ s ∈ pre, stepNoPart c s)
    (hq : c.contentQuery sel = Except.ok els)
    (ht : innerTexts els = Except.ok ts)
    (hne : ts.filter qualifying ≠ []) :
    contentField c =
      Except.ok (joinWith "\n" (((ts.filter qualifying).map pyStrip).take 3)) ∧
    (∀ t, qualifying t = true ↔ 10 < (pyStrip t).length) := by
  refine ⟨?_, qualifying_iff⟩
  unfold contentField
  rw [hsel]
  refine contentCascade_adopt c pre post sel hpre els hq _
    (contentParts_eq_of_texts els ts ht) ?_
  intro h
  exact hne (by simpa using h)

/-- Closed instance of C6: the fixture container adopts the first content
selector. -/
theorem C6_content_rule_witness :
    contentField goodContainer =
      Except.ok (joinWith "\n"
        (((["This is a sufficiently long post body."].filter qualifying).map
          pyStrip).take 3)) ∧
    (∀ t, qualifying t = true ↔ 10 < (pyStrip t).length) :=
  C6_content_rule goodContainer []
    [".feed-shared-text", ".feed-shared-inline-show-more-text", "span[dir=\"ltr\"]"]
    "div[data-id] span[dir=\"ltr\"]"
    [okElem "This is a sufficiently long post body."]
    ["This is a sufficiently long post body."]
    rfl (fun s hs => absurd hs (List.not_mem_nil s)) rfl rfl (by decide)

/-- C7: the run returns at most the requested number of records and at most
one record per discovered container. -/
theorem C7_result_bounds (page : Page) (n : Nat) :
    (scrape_feed_posts page n).length ≤ n ∧
    (scrape_feed_posts page n).length ≤ (firstNonempty page selectors_to_try).length := by
  have h := collectLoop_length_le ((firstNonempty page selectors_to_try).take n) 0
  rw [List.length_take] at h
  exact ⟨le_trans h (Nat.min_le_left _ _), le_trans h (Nat.min_le_right _ _)⟩

/-- C8: when the URL seen after the human signal does not contain the
target domain, the gate rejects on the not-on-target-site branch, the login
step reports failure, and the scraping step is never invoked. -/
theorem C8_reject_off_target (page : Page) (url : String)
    (h : strContains url "linkedin.com" = false) :
    gate_result url = GateResult.rejectedNotOnTargetSite ∧
    login_to_linkedin url = false ∧ mainRun page url = none := by
  have h2 : login_to_linkedin url = false := by
    simp [login_to_linkedin, h]
  refine ⟨by simp [gate_result, h], h2, by simp [mainRun, h2]⟩

/-- Closed instance of C8 at a URL on another site. -/
theorem C8_reject_off_target_witness :
    gate_result "https://othersite.example/" = GateResult.rejectedNotOnTargetSite ∧
    login_to_linkedin "https://othersite.example/" = false ∧
    mainRun emptyPage "https://othersite.example/" = none :=
  C8_reject_off_target emptyPage "https://othersite.example/" (by decide)

/-- C9: every returned record carries as its number the 1-based raw
position of its container among the first requested-count discovered
containers, and the numbers across the result are strictly increasing. -/
theorem C9_raw_index_numbering (page : Page) (n : Nat) :
    (∀ pd ∈ scrape_feed_posts page n,
        ∃ i c, ((firstNonempty page selectors_to_try).take n).get? i = some c ∧
          pd.post_number = i + 1 ∧ extract_post_data c (i + 1) = some pd) ∧
    List.Pairwise (fun a b => a.post_number < b.post_number)
      (scrape_feed_posts page n) := by
  constructor
  · intro pd h
    obtain ⟨i, c, h1, h2, h3⟩ := collectLoop_mem_index h
    refine ⟨i, c, h1, by omega, ?_⟩
    rw [show i + 1 = 0 + i + 1 by omega]
    exact h3
  · exact collectLoop_pairwise _ _

/-- Closed instance of C9: the sole record of the gap page run sits at raw
position 2. -/
theorem C9_raw_index_numbering_witness :
    (∃ i c, ((firstNonempty gapPage selectors_to_try).take 5).get? i = some c ∧
        goodRecord.post_number = i + 1 ∧
        extract_post_data c (i + 1) = some goodRecord) ∧
    List.Pairwise (fun a b => a.post_number < b.post_number)
      (scrape_feed_posts gapPage 5) :=
  ⟨(C9_raw_index_numbering gapPage 5).1 goodRecord (by decide),
   (C9_raw_index_numbering gapPage 5).2⟩

/-- C10, counterexample: a keyword-matching candidate whose accessible
label is present but empty contributes nothing, so the recorded value is
not the label of the last matching element with a non-null label: here that
label is the empty string, yet the returned record carries an empty
engagement mapping rather than an empty-string reactions entry. -/
theorem C10_null_label_counterexample :
    (∃ el ∈ emptyLabelEls, ∃ t, el.innerText = Except.ok t ∧
        engagementMatches t = true ∧ el.ariaLabel = Except.ok (some "")) ∧
    extract_post_data emptyLabelContainer 1 =
      some { post_number := 1, author := "Bob Example", content := "",
             engagement := [], timestamp := "Unknown" } ∧
    ([] : List (String × String)) ≠ [("reactions", "")] :=
  ⟨⟨labeledElem "5 likes" "", List.mem_cons_self _ _, "5 likes", rfl, by decide, rfl⟩,
   rfl, by decide⟩

/-- C10, amended: the engagement mapping of a returned record is empty or
the single pair keyed `reactions`, and with a fault-free candidate query
its value is the accessible label of the last matching element whose label
is truthy (non-null and non-empty): later matches overwrite earlier ones,
and elements with a null or empty label contribute nothing. -/
theorem C10_engagement_shape (c : Container) (n : Nat) (pd : PostData)
    (h : extract_post_data c n = some pd) :
    (pd.engagement = [] ∨ ∃ v, pd.engagement = [("reactions", v)]) ∧
    (∀ els, c.engagementQuery = Except.ok els →
        pd.engagement = (match lastReactionLabel els with
                         | none => ([] : List (String × String))
                         | some v => [("reactions", v)])) := by
  have heng := (extract_some_elim h).2.2.2.1
  constructor
  · rw [heng]
    cases hq : c.engagementQuery with
    | error e =>
        refine Or.inl ?_
        simp [engagementField, hq]
    | ok els =>
        simp only [engagementField, hq]
        rw [engagementLoop_eq_last [] els]
        cases hr : lastReactionLabel els with
        | none => exact Or.inl rfl
        | some v => exact Or.inr ⟨v, rfl⟩
  · intro els hq
    rw [heng]
    simp only [engagementField, hq]
    rw [engagementLoop_eq_last [] els]
    cases hr : lastReactionLabel els with
    | none => rfl
    | some v => rfl

/-- Closed instance of C10 on the record of the fixture container. -/
theorem C10_engagement_shape_witness :
    (goodRecord.engagement = [] ∨ ∃ v, goodRecord.engagement = [("reactions", v)]) ∧
    (∀ els, goodContainer.engagementQuery = Except.ok els →
        goodRecord.engagement = (match lastReactionLabel els with
                                 | none => ([] : List (String × String))
                                 | some v => [("reactions", v)])) :=
  C10_engagement_shape goodContainer 2 goodRecord rfl

end LinkedinScraper
